import Mathlib

set_option maxRecDepth 1000000
set_option maxHeartbeats 4000000

/-!
Verification of the Markdown-ТЗ-to-checklist extractor (`scripts/tz_to_checklist.py`).

The parser, classifier, text normalizer, clause splitter and CSV emitter are
shallowly embedded over `List Char` (Python strings are sequences of code
points, and `len`, slicing and `re` all operate on code points).  Each Python
`re` substitution or anchored match is translated into an explicit scanning
function that reproduces the leftmost-match and backtracking behaviour of the
corresponding pattern.
-/

namespace TZ

/-- Opening curly brace character (written via its code point). -/
def lbrace : Char := Char.ofNat 123

/-- Closing curly brace character (written via its code point). -/
def rbrace : Char := Char.ofNat 125

/-- Python `str.strip()` / `\s` whitespace for the ASCII range used by the tool. -/
def isWS (c : Char) : Bool :=
  c = ' ' || c = '\t' || c = '\n' || c = '\x0b' || c = '\x0c' || c = '\r'

/-- Python `str.lower()` restricted to ASCII letters and the Cyrillic alphabet
(the only alphabets appearing in the tool's vocabulary). -/
def lowerChar (c : Char) : Char :=
  if 'A' ≤ c ∧ c ≤ 'Z' then Char.ofNat (c.toNat + 32)
  else if 'А' ≤ c ∧ c ≤ 'Я' then Char.ofNat (c.toNat + 32)
  else if c = 'Ё' then 'ё'
  else c

/-- Python `str.lower()` on a string. -/
def pyLower (l : List Char) : List Char := l.map lowerChar

/-- Remove a trailing run of whitespace (the right half of Python `str.strip()`). -/
def rstripWS : List Char → List Char
  | [] => []
  | c :: rest =>
    let r := rstripWS rest
    if r.isEmpty && isWS c then [] else c :: r

/-- Python `str.strip()`. -/
def pyStrip (l : List Char) : List Char := rstripWS (l.dropWhile isWS)

/-- Python `str.rstrip()`. -/
def pyRstrip (l : List Char) : List Char := rstripWS l

/-- Python `str.rstrip('.')`: remove all trailing dots. -/
def rstripDots : List Char → List Char
  | [] => []
  | c :: rest =>
    let r := rstripDots rest
    if r.isEmpty && c = '.' then [] else c :: r

/-- Substring occurrence test (Python `in` on strings). -/
def containsSub (pat : List Char) : List Char → Bool
  | [] => pat.isEmpty
  | c :: rest => pat.isPrefixOf (c :: rest) || containsSub pat rest

/-- Index of the first occurrence of `pat` (Python `str.find`, `none` for -1). -/
def findSubIdx (pat : List Char) : List Char → Option Nat
  | [] => if pat.isEmpty then some 0 else none
  | c :: rest =>
    if pat.isPrefixOf (c :: rest) then some 0
    else (findSubIdx pat rest).map (· + 1)

/-- Number of occurrences of a character (Python `str.count` for 1-char needles). -/
def countCh (c : Char) (l : List Char) : Nat := l.count c

/-- `' '.join(...)` over the paragraph buffer. -/
def joinSpace (ls : List (List Char)) : List Char := List.intercalate [' '] ls

/-- Does the string end with the given character (Python `str.endswith` for 1 char)? -/
def endsWithCh (c : Char) (l : List Char) : Bool :=
  match l.getLast? with
  | some d => d = c
  | none => false

/-! ### `TZParser.clean_text`: the fourteen `re.sub` stages, in source order.

Each stage scans left to right; at every position it attempts the pattern and
on failure moves one character forward, exactly like `re.sub`'s leftmost
non-overlapping matching.  Character classes `[^x]+` are greedy runs of
characters other than `x`; since shrinking such a run can never make the
following literal match, the maximal run is the only candidate. -/

/-- Stage 1 scanner: `\[\[([^\]]+)\]\]\([^)]+\)` → `\1`.  The budget drops by
one per scanning step while the text drops by at least one character, so the
wrapper's budget `l.length` always suffices (at budget 0 the text is empty). -/
def sub1F : Nat → List Char → List Char
  | 0, l => l
  | fuel + 1, l =>
    match l with
    | [] => []
    | c :: rest =>
      if c = '[' ∧ rest.take 1 = ['['] then
        let r := rest.drop 1
        let content := r.takeWhile (fun d => d ≠ ']')
        let after := r.drop content.length
        let url := (after.drop 3).takeWhile (fun d => d ≠ ')')
        if content ≠ [] ∧ after.take 3 = [']', ']', '('] ∧ url ≠ [] ∧
            ((after.drop 3).drop url.length).take 1 = [')'] then
          content ++ sub1F fuel ((after.drop 3).drop (url.length + 1))
        else '[' :: sub1F fuel rest
      else c :: sub1F fuel rest

/-- Stage 1: `\[\[([^\]]+)\]\]\([^)]+\)` → `\1`. -/
def sub1 (l : List Char) : List Char := sub1F l.length l

/-- Stage 2 scanner: `\[([^\]]+)\]\([^)]+\)` → `\1`. -/
def sub2F : Nat → List Char → List Char
  | 0, l => l
  | fuel + 1, l =>
    match l with
    | [] => []
    | c :: rest =>
      if c = '[' then
        let content := rest.takeWhile (fun d => d ≠ ']')
        let after := rest.drop content.length
        let url := (after.drop 2).takeWhile (fun d => d ≠ ')')
        if content ≠ [] ∧ after.take 2 = [']', '('] ∧ url ≠ [] ∧
            ((after.drop 2).drop url.length).take 1 = [')'] then
          content ++ sub2F fuel ((after.drop 2).drop (url.length + 1))
        else '[' :: sub2F fuel rest
      else c :: sub2F fuel rest

/-- Stage 2: `\[([^\]]+)\]\([^)]+\)` → `\1`. -/
def sub2 (l : List Char) : List Char := sub2F l.length l

/-- Stage 3 scanner: `\(https?://[^)]+\)` → ``. -/
def sub3F : Nat → List Char → List Char
  | 0, l => l
  | fuel + 1, l =>
    match l with
    | [] => []
    | c :: rest =>
      if c = '(' then
        let scheme :=
          if ['h','t','t','p','s',':','/','/'].isPrefixOf rest then some 8
          else if ['h','t','t','p',':','/','/'].isPrefixOf rest then some 7
          else none
        match scheme with
        | some n =>
          let url := (rest.drop n).takeWhile (fun d => d ≠ ')')
          if url ≠ [] ∧ ((rest.drop n).drop url.length).take 1 = [')'] then
            sub3F fuel ((rest.drop n).drop (url.length + 1))
          else '(' :: sub3F fuel rest
        | none => '(' :: sub3F fuel rest
      else c :: sub3F fuel rest

/-- Stage 3: `\(https?://[^)]+\)` → ``. -/
def sub3 (l : List Char) : List Char := sub3F l.length l

/-- Stage 4 scanner: `\(#[^)]+\)` → ``. -/
def sub4F : Nat → List Char → List Char
  | 0, l => l
  | fuel + 1, l =>
    match l with
    | [] => []
    | c :: rest =>
      if c = '(' ∧ rest.take 1 = ['#'] then
        let url := (rest.drop 1).takeWhile (fun d => d ≠ ')')
        if url ≠ [] ∧ ((rest.drop 1).drop url.length).take 1 = [')'] then
          sub4F fuel ((rest.drop 1).drop (url.length + 1))
        else '(' :: sub4F fuel rest
      else c :: sub4F fuel rest

/-- Stage 4: `\(#[^)]+\)` → ``. -/
def sub4 (l : List Char) : List Char := sub4F l.length l

/-- Stage 5 scanner: literal `{.underline}` → ``. -/
def sub5F : Nat → List Char → List Char
  | 0, l => l
  | fuel + 1, l =>
    match l with
    | [] => []
    | c :: rest =>
      if c = lbrace ∧ ('.' :: "underline".toList ++ [rbrace]).isPrefixOf rest then
        sub5F fuel (rest.drop 11)
      else c :: sub5F fuel rest

/-- Stage 5: literal `{.underline}` → ``. -/
def sub5 (l : List Char) : List Char := sub5F l.length l

/-- Stage 6 scanner: literal `{.mark}` → ``. -/
def sub6F : Nat → List Char → List Char
  | 0, l => l
  | fuel + 1, l =>
    match l with
    | [] => []
    | c :: rest =>
      if c = lbrace ∧ ('.' :: "mark".toList ++ [rbrace]).isPrefixOf rest then
        sub6F fuel (rest.drop 6)
      else c :: sub6F fuel rest

/-- Stage 6: literal `{.mark}` → ``. -/
def sub6 (l : List Char) : List Char := sub6F l.length l

/-- Stage 7 scanner: `\*\*([^*]+)\*\*` → `\1`. -/
def sub7F : Nat → List Char → List Char
  | 0, l => l
  | fuel + 1, l =>
    match l with
    | [] => []
    | c :: rest =>
      if c = '*' ∧ rest.take 1 = ['*'] then
        let r := rest.drop 1
        let content := r.takeWhile (fun d => d ≠ '*')
        if content ≠ [] ∧ (r.drop content.length).take 2 = ['*', '*'] then
          content ++ sub7F fuel ((r.drop content.length).drop 2)
        else '*' :: sub7F fuel rest
      else c :: sub7F fuel rest

/-- Stage 7: `\*\*([^*]+)\*\*` → `\1`. -/
def sub7 (l : List Char) : List Char := sub7F l.length l

/-- Stage 8 scanner: `\*([^*]+)\*` → `\1`. -/
def sub8F : Nat → List Char → List Char
  | 0, l => l
  | fuel + 1, l =>
    match l with
    | [] => []
    | c :: rest =>
      if c = '*' then
        let content := rest.takeWhile (fun d => d ≠ '*')
        if content ≠ [] ∧ (rest.drop content.length).take 1 = ['*'] then
          content ++ sub8F fuel ((rest.drop content.length).drop 1)
        else '*' :: sub8F fuel rest
      else c :: sub8F fuel rest

/-- Stage 8: `\*([^*]+)\*` → `\1`. -/
def sub8 (l : List Char) : List Char := sub8F l.length l

/-- Stage 9 scanner: `__([^_]+)__` → `\1`. -/
def sub9F : Nat → List Char → List Char
  | 0, l => l
  | fuel + 1, l =>
    match l with
    | [] => []
    | c :: rest =>
      if c = '_' ∧ rest.take 1 = ['_'] then
        let r := rest.drop 1
        let content := r.takeWhile (fun d => d ≠ '_')
        if content ≠ [] ∧ (r.drop content.length).take 2 = ['_', '_'] then
          content ++ sub9F fuel ((r.drop content.length).drop 2)
        else '_' :: sub9F fuel rest
      else c :: sub9F fuel rest

/-- Stage 9: `__([^_]+)__` → `\1`. -/
def sub9 (l : List Char) : List Char := sub9F l.length l

/-- Stage 10 scanner: `_([^_]+)_` → `\1`. -/
def sub10F : Nat → List Char → List Char
  | 0, l => l
  | fuel + 1, l =>
    match l with
    | [] => []
    | c :: rest =>
      if c = '_' then
        let content := rest.takeWhile (fun d => d ≠ '_')
        if content ≠ [] ∧ (rest.drop content.length).take 1 = ['_'] then
          content ++ sub10F fuel ((rest.drop content.length).drop 1)
        else '_' :: sub10F fuel rest
      else c :: sub10F fuel rest

/-- Stage 10: `_([^_]+)_` → `\1`. -/
def sub10 (l : List Char) : List Char := sub10F l.length l

/-- Stage 11: `\[` → `` (delete every `[`). -/
def sub11 (l : List Char) : List Char := l.filter (fun c => c ≠ '[')

/-- Stage 12: `\]` → `` (delete every `]`). -/
def sub12 (l : List Char) : List Char := l.filter (fun c => c ≠ ']')

/-- Stages 13 and 14 (identical patterns): backslash-quote → quote. -/
def sub13 : List Char → List Char
  | [] => []
  | c :: rest =>
    match rest with
    | [] => [c]
    | d :: rest2 =>
      if c = '\\' ∧ d = '"' then '"' :: sub13 rest2
      else c :: sub13 (d :: rest2)

/-- Stage 15: `\s+` → `' '` — collapse each maximal whitespace run to one space.
The boolean records whether the previous character belonged to a run. -/
def collapseGo : Bool → List Char → List Char
  | _, [] => []
  | prevWS, c :: rest =>
    if isWS c then
      if prevWS then collapseGo true rest else ' ' :: collapseGo true rest
    else c :: collapseGo false rest

/-- `TZParser.clean_text`: the fourteen substitutions, whitespace collapse, strip. -/
def cleanText (l : List Char) : List Char :=
  pyStrip (collapseGo false
    (sub13 (sub13 (sub12 (sub11 (sub10 (sub9 (sub8 (sub7 (sub6 (sub5
      (sub4 (sub3 (sub2 (sub1 l)))))))))))))))

/-! ### Classifier vocabulary (`FUNCTIONAL_MARKERS`, `EXCLUDE_PATTERNS`,
`DESCRIPTIVE_PATTERNS`, `valid_list_markers`, `verb_starts`). -/

/-- `TZParser.FUNCTIONAL_MARKERS`, verbatim from the source. -/
def FUNCTIONAL_MARKERS : List (List Char) :=
  (["должен", "должна", "должно", "должны",
    "может", "могут", "можно",
    "отображается", "отображаются", "отображение",
    "доступен", "доступна", "доступно", "доступны",
    "содержит", "содержится", "содержат",
    "позволяет", "позволяют",
    "поддерживает", "поддерживается",
    "выполняется", "выполняет",
    "происходит", "осуществляется",
    "открывается", "закрывается",
    "включает", "включается",
    "имеет", "имеют",
    "использует", "используется", "используют",
    "при нажатии", "при выборе", "при вводе",
    "игрок", "пользователь", "персонаж", "гладиатор",
    "система", "функция", "механика",
    "кнопка", "экран", "меню", "список",
    "сортировка", "фильтр",
    "начисляется", "расходуется", "получает",
    "увеличивается", "уменьшается", "снижается",
    "активируется", "деактивируется",
    "работает", "срабатывает"] : List String).map String.toList

/-- `verb_starts` inside `is_functional_requirement`, verbatim. -/
def verbStarts : List (List Char) :=
  (["в ", "на ", "при ", "после ", "до ", "для ", "если ",
    "каждый", "каждая", "каждое", "все ", "любой", "любая"] : List String).map
    String.toList

/-- `valid_list_markers` inside `is_list_item_valid`, verbatim. -/
def validListMarkers : List (List Char) :=
  (["сортировка", "фильтр", "категория",
    "оружие", "броня", "расходуем",
    "повышение", "понижение", "улучшение",
    "продать", "купить", "выставить",
    "по имен", "по ранг", "по редкост", "по названи",
    "валюта", "soft", "hard"] : List String).map String.toList

/-- Plain-substring entries of `DESCRIPTIVE_PATTERNS` (those without `.*`),
verbatim.  They are searched (unanchored, case-sensitive) in the lowercased
text, so the entries containing capital letters can never match — exactly as
in the source. -/
def descriptivePlain : List (List Char) :=
  (["закаленное тело", "тело в поту", "расстеленные по полу",
    "путь был долог", "она прекрасна", "тропа славы",
    "Краткая суть проекта", "Ближайшие аналоги", "Название проекта",
    "Жанр:", "Платформа:", "Локализация:", "Формат:", "Стиль:",
    "Режим игры", "Графическая часть", "Технические требования",
    "все значения указаны для тестов"] : List String).map String.toList

/-- `p2` occurs in `l` with no newline strictly before it (`.*` cannot cross
a newline). -/
def containsBeforeNL (p2 : List Char) : List Char → Bool
  | [] => p2.isEmpty
  | c :: rest => p2.isPrefixOf (c :: rest) || (c ≠ '\n' && containsBeforeNL p2 rest)

/-- Unanchored `re.search` of `p1.*p2`: some occurrence of `p1` is followed
(after a newline-free gap) by `p2`. -/
def searchDotStar (p1 p2 : List Char) : List Char → Bool
  | [] => p1.isPrefixOf [] && containsBeforeNL p2 []
  | c :: rest =>
    (p1.isPrefixOf (c :: rest) && containsBeforeNL p2 ((c :: rest).drop p1.length))
      || searchDotStar p1 p2 rest

/-- `TZParser.is_descriptive_text`: lowercase, then `re.search` each of
`DESCRIPTIVE_PATTERNS` (four of them use `.*`, the rest are literal). -/
def isDescriptiveText (text : List Char) : Bool :=
  let tl := pyLower text
  searchDotStar "тело ".toList " сковано".toList tl
    || searchDotStar "тело ".toList " инструмент".toList tl
    || searchDotStar "разум ".toList " холодный".toList tl
    || searchDotStar "он ".toList " на вершине".toList tl
    || descriptivePlain.any (fun p => containsSub p tl)

/-- `EXCLUDE_PATTERNS` relevant check: every pattern is anchored with `^` and
searched with `re.IGNORECASE`, which amounts to prefix tests on the lowercased
text (plus the all-whitespace pattern `^\s*$` and two patterns with `?`/`.*`). -/
def isExcluded (text : List Char) : Bool :=
  let tl := pyLower text
  ("рис.".toList).isPrefixOf tl
    || ("таблица".toList).isPrefixOf tl
    || ("**".toList).isPrefixOf tl
    || ("[[".toList).isPrefixOf tl
    || ("![".toList).isPrefixOf tl
    || ("---".toList).isPrefixOf tl
    || tl.all isWS
    || ("#".toList).isPrefixOf tl
    || ("gif".toList).isPrefixOf tl
    || ("формула".toList).isPrefixOf tl
    || ("значения указан".toList).isPrefixOf tl
    || ("значени указан".toList).isPrefixOf tl
    || (("текст ".toList).isPrefixOf tl
        && containsBeforeNL " будет определен".toList (tl.drop 6))
    || ("точный список".toList).isPrefixOf tl
    || ("подробнее".toList).isPrefixOf tl
    || ("список возможных".toList).isPrefixOf tl
    || ("пример".toList).isPrefixOf tl

/-- `TZParser.is_functional_requirement`. -/
def isFunctionalRequirement (text : List Char) : Bool :=
  let tl := pyLower text
  if isDescriptiveText text then false
  else if isExcluded text then false
  else if text.length < 15 then false
  else if 400 < text.length then false
  else
    FUNCTIONAL_MARKERS.any (fun m => containsSub m tl)
      || verbStarts.any (fun s => s.isPrefixOf tl)

/-- `TZParser.is_list_item_valid`. -/
def isListItemValid (text : List Char) : Bool :=
  if text.length < 5 then false
  else if isDescriptiveText text then false
  else if validListMarkers.any (fun m => containsSub m (pyLower text)) then true
  else if 15 ≤ text.length then true
  else false

/-! ### `transform_to_check` and its helpers. -/

/-- `re.sub(r'^[-*•]\s*', '', text)`: drop one leading bullet plus whitespace. -/
def subLeadBullet (l : List Char) : List Char :=
  match l with
  | c :: rest =>
    if c = '-' ∨ c = '*' ∨ c = '•' then rest.dropWhile isWS else l
  | [] => l

/-- `re.sub(r'^\d+[.)]\s*', '', text)`: drop one leading `1.`/`1)` marker. -/
def subLeadNum (l : List Char) : List Char :=
  let ds := l.takeWhile Char.isDigit
  if ds ≠ [] ∧ ((l.drop ds.length).take 1 = ['.'] ∨ (l.drop ds.length).take 1 = [')']) then
    (l.drop (ds.length + 1)).dropWhile isWS
  else l

/-- `re.sub(r';+\s*$', '', text)`: the leftmost match of this end-anchored
pattern is the maximal trailing whitespace run together with the maximal run
of semicolons right before it (if that run is nonempty). -/
def subTrailSemis (l : List Char) : List Char :=
  let r := l.reverse
  let w := r.takeWhile isWS
  let s := (r.drop w.length).takeWhile (fun c => c = ';')
  if s ≠ [] then ((r.drop w.length).drop s.length).reverse else l

/-- Cutoff patterns inside `transform_to_check`. -/
def cutoffPatterns : List (List Char) :=
  ([". ", ", т.е.", ", где ", ", который ", ", которая "] : List String).map
    String.toList

/-- The cutoff loop of `transform_to_check`: truncate at the first pattern
found at an index strictly between 80 and 200 (first match wins). -/
def cutoffLoop : List (List Char) → List Char → List Char
  | [], t => t
  | p :: ps, t =>
    match findSubIdx p t with
    | some i => if 80 < i ∧ i < 200 then t.take i else cutoffLoop ps t
    | none => cutoffLoop ps t

/-- `TZParser.transform_to_check`. -/
def transformToCheck (text : List Char) : List Char :=
  let t := cleanText text
  let t := subLeadBullet t
  let t := subLeadNum t
  let t := subTrailSemis t
  let t := rstripDots t
  let t := collapseGo false t
  let t := if 250 < t.length then cutoffLoop cutoffPatterns t else t
  pyStrip t

/-! ### `split_complex_requirement` and `extract_list_items`. -/

/-- `TZParser.SPLIT_MARKERS`, verbatim. -/
def SPLIT_MARKERS : List (List Char) :=
  ([", а также", ", а ", ". Кроме того,", ". Также ", ". При этом ",
    ", при этом ", ", где "] : List String).map String.toList

/-- `text.split(marker, 1)`: split at the first occurrence of `marker`. -/
def firstSplit (m : List Char) : List Char → Option (List Char × List Char)
  | [] => if m.isPrefixOf ([] : List Char) then some ([], []) else none
  | c :: rest =>
    if m.isPrefixOf (c :: rest) then some ([], (c :: rest).drop m.length)
    else (firstSplit m rest).map (fun p => (c :: p.1, p.2))

/-- The `for marker in SPLIT_MARKERS` loop: the first marker that occurs in
`text` and whose first-occurrence halves both have more than 30 characters. -/
def findSplit : List (List Char) → List Char → Option (List Char × List Char)
  | [], _ => none
  | m :: ms, text =>
    match firstSplit m text with
    | some (a, b) =>
      if 30 < a.length ∧ 30 < b.length then some (a, b) else findSplit ms text
    | none => findSplit ms text

/-- `TZParser.split_complex_requirement`, with an explicit recursion budget.
Every applicable split makes both halves strictly shorter (the marker is
nonempty), so a budget of `text.length` always suffices; the wrapper
`splitComplexRequirement` supplies it, and the adequacy of the budget is
proved below (`splitComplexRequirement_eq`). -/
def splitComplexRequirementF : Nat → List Char → List (List Char)
  | 0, text => [text]
  | fuel + 1, text =>
    match findSplit SPLIT_MARKERS text with
    | some (a, b) => splitComplexRequirementF fuel a ++ splitComplexRequirementF fuel b
    | none => [text]

/-- `TZParser.split_complex_requirement`. -/
def splitComplexRequirement (text : List Char) : List (List Char) :=
  splitComplexRequirementF text.length text

/-- `re.split(r'[;\n]', text)`. -/
def splitSemiNL : List Char → List (List Char)
  | [] => [[]]
  | c :: rest =>
    match splitSemiNL rest with
    | [] => [[]]
    | h :: t => if c = ';' ∨ c = '\n' then [] :: h :: t else (c :: h) :: t

/-- `TZParser.extract_list_items`. -/
def extractListItems (text : List Char) : List (List Char) :=
  (splitSemiNL text).filterMap (fun part =>
    let p := pyStrip part
    if 5 < p.length then
      let p1 := subLeadNum (subLeadBullet p)
      if 5 < p1.length then some p1 else none
    else none)

/-! ### Heading and list-item patterns.

`HEADER_PATTERN = ^(#{1,6})\s*(\d+(?:\.\d+)*\.?)\s*(.+)$` and
`HEADER_MARKED_PATTERN = ^(#{1,6})\s*\[(\d+(?:\.\d+)*\.?)\s+([^\]]+)\](?:\{[^}]*\})?`
share the number group `(\d+(?:\.\d+)*\.?)`; its backtracking (shrinking the
leading `\d+`, unwinding `(?:\.\d+)*` iterations, dropping the optional dot)
is reproduced below, parameterized by the matcher for the rest of the
pattern.  Processed lines come from splitting the document on newlines, so
they never contain `'\n'`; the `(.+)$` tails below demand a newline-free
remainder accordingly. -/

/-- Tail `\s*(.+)$` of `HEADER_PATTERN`: greedy whitespace, then a nonempty
remainder; when everything left is whitespace, `\s*` gives back one character
for `(.+)` to consume. -/
def tailPlain (v : List Char) : Option (List Char) :=
  let w := v.takeWhile isWS
  let r := v.drop w.length
  if r ≠ [] then
    if r.contains '\n' then none else some r
  else
    match w.getLast? with
    | some c => if c = '\n' then none else some [c]
    | none => none

/-- Tail `\s+([^\]]+)\]` of `HEADER_MARKED_PATTERN`: at least one whitespace
character, then a nonempty bracket-free group ending at the first `]`. -/
def tailMarked (v : List Char) : Option (List Char) :=
  let w := (v.takeWhile isWS).length
  if w = 0 then none
  else
    let p := (v.takeWhile (fun d => d ≠ ']')).length
    if p = v.length then none
    else
      let j := min w (p - 1)
      if j = 0 then none else some ((v.drop j).take (p - j))

/-- Initial backtracking counter for the `(?:\.\d+)*` group at text `t`: the
number of digits available to the iteration's `\d+` when `t` starts with a
dot. -/
def initJ : List Char → Nat
  | '.' :: u => (u.takeWhile Char.isDigit).length
  | _ => 0

/-- `(?:\.\d+)*\.?` followed by `tailFn`, with regex priority.  `j` is the
digit count the current `\.\d+` iteration attempt will consume; attempts run
from `initJ t` down to `1` (greedy `\d+` with backtracking), after which the
optional dot and the empty alternative are tried, in that order.  The budget
drops by one per attempt; every nested level consumes at least two characters
and resets `j` below the remaining length, so the wrapper's quadratic budget
always suffices. -/
def numTailF (tailFn : List Char → Option (List Char)) :
    Nat → List Char → Nat → Option (List Char × List Char)
  | 0, _, _ => none
  | _ + 1, t, 0 =>
    (match t with
     | '.' :: u => (tailFn u).map (fun title => (['.'], title))
     | _ => none).orElse (fun _ =>
      (tailFn t).map (fun title => (([] : List Char), title)))
  | fuel + 1, t, j + 1 =>
    (match t with
     | '.' :: u =>
       if j + 1 ≤ (u.takeWhile Char.isDigit).length then
         match numTailF tailFn fuel (u.drop (j + 1)) (initJ (u.drop (j + 1))) with
         | some (e, title) => some ('.' :: u.take (j + 1) ++ e, title)
         | none => none
       else none
     | _ => none).orElse (fun _ => numTailF tailFn fuel t j)

/-- The number group `(\d+(?:\.\d+)*\.?)` followed by `tailFn`, backtracking
over how many of the leading digits `\d+` keeps (from all of them down to
one). -/
def headerNumBT (tailFn : List Char → Option (List Char)) (r2 : List Char) :
    Nat → Option (List Char × List Char)
  | 0 => none
  | i + 1 =>
    match numTailF tailFn ((r2.length + 2) * (r2.length + 2)) (r2.drop (i + 1))
        (initJ (r2.drop (i + 1))) with
    | some (e, title) => some (r2.take (i + 1) ++ e, title)
    | none => headerNumBT tailFn r2 i

/-- `TZParser.HEADER_PATTERN.match(line)`: `(level, number group, title group)`. -/
def headerMatch (line : List Char) : Option (Nat × List Char × List Char) :=
  let hs := (line.takeWhile (fun c => c = '#')).length
  if hs = 0 ∨ 6 < hs then none
  else
    let r2 := (line.drop hs).dropWhile isWS
    let ds := r2.takeWhile Char.isDigit
    if ds = [] then none
    else
      match headerNumBT tailPlain r2 ds.length with
      | some (num, title) => some (hs, num, title)
      | none => none

/-- `TZParser.HEADER_MARKED_PATTERN.match(line)`. -/
def headerMarkedMatch (line : List Char) : Option (Nat × List Char × List Char) :=
  let hs := (line.takeWhile (fun c => c = '#')).length
  if hs = 0 ∨ 6 < hs then none
  else
    match (line.drop hs).dropWhile isWS with
    | '[' :: r3 =>
      let ds := r3.takeWhile Char.isDigit
      if ds = [] then none
      else
        match headerNumBT tailMarked r3 ds.length with
        | some (num, title) => some (hs, num, title)
        | none => none
    | _ => none

/-- The combined heading check of `TZParser.parse`: the matched groups, taken
from `HEADER_MARKED_PATTERN` when it matches, else from `HEADER_PATTERN`. -/
def headerCombined (line : List Char) : Option (Nat × List Char × List Char) :=
  match headerMarkedMatch line with
  | some m => some m
  | none => headerMatch line

/-- `TZParser.HEADER_NO_NUM_PATTERN = ^(#{1,6})\s+(.+)$`. -/
def headerNoNumMatch (line : List Char) : Option (List Char) :=
  let hs := (line.takeWhile (fun c => c = '#')).length
  if hs = 0 ∨ 6 < hs then none
  else
    let w := (line.drop hs).takeWhile isWS
    if w = [] then none
    else
      let r := (line.drop hs).drop w.length
      if r ≠ [] then
        if r.contains '\n' then none else some r
      else if 2 ≤ w.length then some [' ']
      else none

/-- Shared tail `\s+(.+)$` of the two list-item patterns. -/
def listTail (u : List Char) : Option (List Char) :=
  let w := u.takeWhile isWS
  if w = [] then none
  else
    let r := u.drop w.length
    if r ≠ [] then
      if r.contains '\n' then none else some r
    else
      match w.getLast? with
      | some c => if c = '\n' then none else some [c]
      | none => none

/-- `TZParser.LIST_ITEM_PATTERN = ^\s*[-*•]\s+(.+)$`. -/
def listItemMatch (line : List Char) : Option (List Char) :=
  match line.dropWhile isWS with
  | c :: u => if c = '-' ∨ c = '*' ∨ c = '•' then listTail u else none
  | [] => none

/-- `TZParser.NUMBERED_LIST_PATTERN = ^\s*\d+[.)]\s+(.+)$`. -/
def numberedListMatch (line : List Char) : Option (List Char) :=
  let t := line.dropWhile isWS
  let ds := t.takeWhile Char.isDigit
  if ds = [] then none
  else
    match t.drop ds.length with
    | c :: u => if c = '.' ∨ c = ')' then listTail u else none
    | [] => none

/-- `list_match or numbered_match` with the group of whichever matched. -/
def listCombined (line : List Char) : Option (List Char) :=
  match listItemMatch line with
  | some g => some g
  | none => numberedListMatch line

/-! ### The parser state machine (`TZParser.parse`). -/

/-- `ChecklistItem` dataclass: number, name and the six empty tracking
columns (populated by a human, never by the tool). -/
structure ChecklistItem where
  number : Nat
  name : List Char
  android : List Char := []
  ios : List Char := []
  pc : List Char := []
  version : List Char := []
  bugLink : List Char := []
  comment : List Char := []
deriving DecidableEq

/-- Build an item the way `parse`/`parse_paragraph` do (only number and name). -/
def mkItem (n : Nat) (name : List Char) : ChecklistItem := { number := n, name := name }

/-- One step of the item-emission loops inside `parse_paragraph`: a candidate
that classifies as a functional requirement is numbered and appended. -/
def emitIf (sect : List Char) (acc : Nat × List (List Char × ChecklistItem))
    (it : List Char) : Nat × List (List Char × ChecklistItem) :=
  if isFunctionalRequirement it then
    (acc.1 + 1, acc.2 ++ [(sect, mkItem (acc.1 + 1) (transformToCheck it))])
  else acc

/-- The `^([^:]+):\s*` lead-in of the inline-list branch of
`parse_paragraph`: when the text has a nonempty colon-free lead, long enough
(stripped) and classifying as a requirement, it is emitted first. -/
def introEmit (counter : Nat) (text sect : List Char) :
    Nat × List (List Char × ChecklistItem) :=
  if (text.takeWhile (fun c => c ≠ ':')) ≠ [] ∧
      (text.takeWhile (fun c => c ≠ ':')).length < text.length ∧
      20 < (pyStrip (text.takeWhile (fun c => c ≠ ':'))).length ∧
      isFunctionalRequirement (pyStrip (text.takeWhile (fun c => c ≠ ':'))) then
    (counter + 1,
     [(sect, mkItem (counter + 1)
        (transformToCheck (pyStrip (text.takeWhile (fun c => c ≠ ':')))))])
  else (counter, [])

/-- `TZParser.parse_paragraph`, with the mutable `self.item_counter` made
explicit: takes the counter before the call, returns the counter after it
together with the `(section, item)` pairs produced. -/
def parseParagraph (counter : Nat) (text sect : List Char) :
    Nat × List (List Char × ChecklistItem) :=
  if isDescriptiveText text then (counter, [])
  else if 2 ≤ countCh ';' text then
    (extractListItems text).foldl (emitIf sect) (introEmit counter text sect)
  else if isFunctionalRequirement text then
    (splitComplexRequirement text).foldl (emitIf sect) (counter, [])
  else (counter, [])

/-- The whole mutable state of `TZParser.parse`: the loop locals
(`current_section`, `current_section_num`, `paragraph_buffer`,
`in_code_block`, `in_table`) together with the instance fields the loop
updates (`parsing_active`, `list_context`, `item_counter`,
`checklist_items`). -/
structure ParseState where
  currentSection : List Char := []
  currentSectionNum : List Char := []
  paragraphBuffer : List (List Char) := []
  inCodeBlock : Bool := false
  inTable : Bool := false
  parsingActive : Bool := false
  listContext : List Char := []
  itemCounter : Nat := 0
  checklistItems : List (List Char × ChecklistItem) := []
deriving DecidableEq

/-- The initial parser state. -/
def initState : ParseState := {}

/-- Flush the paragraph buffer through `parse_paragraph` and clear it. -/
def flushPar (st : ParseState) : ParseState :=
  let pt := joinSpace st.paragraphBuffer
  let r := parseParagraph st.itemCounter pt st.currentSection
  { st with itemCounter := r.1,
            checklistItems := st.checklistItems ++ r.2,
            paragraphBuffer := [] }

/-- Does the stripped line start a code fence? -/
def isFenceLine (line : List Char) : Bool :=
  ("```".toList).isPrefixOf (pyStrip line)

/-- Processing of a matched numbered heading (`parse`, the
`if header_match or header_marked_match:` branch). -/
def applyHeader (start : List Char) (st : ParseState)
    (m : Nat × List Char × List Char) : ParseState :=
  let st1 := if st.paragraphBuffer ≠ [] ∧ st.parsingActive then flushPar st else st
  let num := rstripDots m.2.1
  let title := cleanText m.2.2
  if start.isPrefixOf num then
    { st1 with parsingActive := true,
               currentSectionNum := num,
               currentSection := num ++ ' ' :: title }
  else if st1.parsingActive then { st1 with parsingActive := false }
  else st1

/-- The second half of the list-item branch of `parse`: skip too-short
cleaned items, then emit the cleaned item when the raw text classifies as a
requirement or the cleaned text is a valid list entry. -/
def addListItem (st1 : ParseState) (txt : List Char) : ParseState :=
  if (transformToCheck txt).length < 5 then st1
  else if isFunctionalRequirement txt || isListItemValid (transformToCheck txt) then
    { st1 with itemCounter := st1.itemCounter + 1,
               checklistItems := st1.checklistItems ++
                 [(st1.currentSection,
                   mkItem (st1.itemCounter + 1) (transformToCheck txt))] }
  else st1

/-- Processing of a matched list-item line (`parse`, the
`if list_match or numbered_match:` branch): finalize the buffered paragraph
(as list context when it ends with a colon, by ordinary flushing otherwise),
then handle the item itself. -/
def handleListItem (st : ParseState) (txt : List Char) : ParseState :=
  if st.paragraphBuffer ≠ [] then
    if endsWithCh ':' (pyRstrip (joinSpace st.paragraphBuffer)) then
      addListItem
        { st with
            listContext := cleanText ((pyRstrip (joinSpace st.paragraphBuffer)).dropLast)
            paragraphBuffer := [] } txt
    else addListItem { flushPar st with listContext := [] } txt
  else addListItem st txt

/-- The exclusion tests for an ordinary buffered line (`parse`, final branch):
images, quotes, figure captions and rules are skipped. -/
def bufferable (stripped : List Char) : Bool :=
  !stripped.isEmpty
    && !(("!".toList).isPrefixOf stripped)
    && !((">".toList).isPrefixOf stripped)
    && !(("Рис.".toList).isPrefixOf stripped)
    && !(("*Рис.".toList).isPrefixOf stripped)
    && !(("---".toList).isPrefixOf stripped)

/-- One iteration of the `for line in lines` loop of `TZParser.parse`. -/
def parseStep (start : List Char) (st : ParseState) (line : List Char) : ParseState :=
  if isFenceLine line then { st with inCodeBlock := !st.inCodeBlock }
  else if st.inCodeBlock then st
  else if 2 ≤ countCh '|' line then { st with inTable := true }
  else if st.inTable && (pyStrip line).isEmpty then { st with inTable := false }
  else if st.inTable then st
  else
    match headerCombined line with
    | some m => applyHeader start st m
    | none =>
      if !st.parsingActive then st
      else if (headerNoNumMatch line).isSome then
        if st.paragraphBuffer ≠ [] then flushPar st else st
      else if (pyStrip line).isEmpty then
        if st.paragraphBuffer ≠ [] then flushPar st else st
      else
        match listCombined line with
        | some txt => handleListItem st txt
        | none =>
          let stripped := pyStrip line
          if bufferable stripped then
            { st with paragraphBuffer := st.paragraphBuffer ++ [stripped] }
          else st

/-- `content.split('\n')`. -/
def splitLines : List Char → List (List Char)
  | [] => [[]]
  | c :: rest =>
    match splitLines rest with
    | [] => [[]]
    | h :: t => if c = '\n' then [] :: h :: t else (c :: h) :: t

/-- `TZParser.parse()`: fold the loop over the lines, then flush the last
paragraph if parsing is still active. -/
def parseDoc (start : List Char) (doc : List Char) : ParseState :=
  let st := (splitLines doc).foldl (parseStep start) initState
  if st.paragraphBuffer ≠ [] ∧ st.parsingActive then flushPar st else st

/-- Convenience wrapper taking Lean string literals. -/
def parseDocStr (start doc : String) : ParseState := parseDoc start.toList doc.toList

/-! ### `ChecklistGenerator.generate_csv`.

`csv.writer.writerow` receives Python strings for every cell except the item
number, which is an `int`; a cell is therefore either a string or a number. -/

/-- One CSV cell: a string or the integer item number. -/
inductive Cell where
  | str : List Char → Cell
  | int : Nat → Cell
deriving DecidableEq

/-- `ChecklistGenerator.CSV_HEADER`, verbatim (`№ п\п` contains a backslash). -/
def headerRow : List Cell :=
  (["№ п\\п", "Название", "Android", "IOS", "ПК",
    "Версия сборки", "Ссылка на баг-репорт", "Комментарий"] : List String).map
    (fun s => Cell.str s.toList)

/-- The section row written when the section changes. -/
def sectionRow (sec : List Char) : List Cell :=
  [Cell.str sec, Cell.str [], Cell.str [], Cell.str [], Cell.str [],
   Cell.str [], Cell.str [], Cell.str []]

/-- Is the row introductory (`item.name.rstrip().endswith(':')`)? -/
def isIntroItem (it : ChecklistItem) : Bool := endsWithCh ':' (pyRstrip it.name)

/-- The unnumbered row written for an introductory item. -/
def introRow (it : ChecklistItem) : List Cell :=
  [Cell.str [], Cell.str it.name, Cell.str it.android, Cell.str it.ios,
   Cell.str it.pc, Cell.str it.version, Cell.str it.bugLink, Cell.str it.comment]

/-- The numbered row written for an ordinary item. -/
def numRow (n : Nat) (it : ChecklistItem) : List Cell :=
  [Cell.int n, Cell.str it.name, Cell.str it.android, Cell.str it.ios,
   Cell.str it.pc, Cell.str it.version, Cell.str it.bugLink, Cell.str it.comment]

/-- The body loop of `generate_csv`: `cs` is `current_section`, `n` is
`item_num`. -/
def csvBody (cs : List Char) (n : Nat) :
    List (List Char × ChecklistItem) → List (List Cell)
  | [] => []
  | (sec, it) :: rest =>
    (if sec = cs then ([] : List (List Cell)) else [sectionRow sec]) ++
      (if isIntroItem it then introRow it :: csvBody sec n rest
       else numRow (n + 1) it :: csvBody sec (n + 1) rest)

/-- `ChecklistGenerator.generate_csv`: header row, then the section-grouped
body. -/
def generateCsvRows (items : List (List Char × ChecklistItem)) : List (List Cell) :=
  headerRow :: csvBody [] 0 items

/-- All numbers appearing in the produced rows, in order (only `item_num`
cells are ever written as numbers). -/
def cellNums (rows : List (List Cell)) : List Nat :=
  (rows.map (fun row => row.filterMap (fun c =>
    match c with
    | Cell.int k => some k
    | Cell.str _ => none))).flatten

/-- The strictly increasing, gap-free sequence `s, s+1, ..., s+k-1`. -/
def natSeq (s : Nat) : Nat → List Nat
  | 0 => []
  | k + 1 => s :: natSeq (s + 1) k

/-- Number of section-header rows the body emits, starting from current
section `cs`. -/
def sectionChanges (cs : List Char) : List (List Char × ChecklistItem) → Nat
  | [] => 0
  | (sec, _) :: rest => (if sec = cs then 0 else 1) + sectionChanges sec rest

/-! ### Statement-side predicates used by the theorems. -/

/-- Characters that can trigger one of the fourteen markup substitutions. -/
def isMarkupChar (c : Char) : Bool :=
  c = '[' || c = ']' || c = '(' || c = '*' || c = '_' || c = '\\' || c = lbrace

/-- No character of the string can trigger a markup substitution. -/
def markupFree (l : List Char) : Bool := l.all (fun c => !isMarkupChar c)

/-- Every whitespace character of the string is a plain space. -/
def wsOnlySpace (l : List Char) : Bool := l.all (fun c => !isWS c || c = ' ')

/-- No two adjacent whitespace characters. -/
def noTwoWS : List Char → Bool
  | [] => true
  | [_] => true
  | c :: d :: rest => !(isWS c && isWS d) && noTwoWS (d :: rest)

/-- The string is empty or does not start with whitespace. -/
def headNotWS : List Char → Bool
  | [] => true
  | c :: _ => !isWS c

/-! ## Lemmas for claim C6: behaviour of the normalizer on markup-free text. -/

theorem markupFree_cons {c : Char} {rest : List Char} (h : markupFree (c :: rest) = true) :
    isMarkupChar c = false ∧ markupFree rest = true := by
  simp only [markupFree, List.all_cons, Bool.and_eq_true, Bool.not_eq_true'] at h
  exact ⟨h.1, h.2⟩

theorem isMarkupChar_spec {c : Char} (h : isMarkupChar c = false) :
    c ≠ '[' ∧ c ≠ ']' ∧ c ≠ '(' ∧ c ≠ '*' ∧ c ≠ '_' ∧ c ≠ '\\' ∧ c ≠ lbrace := by
  simp only [isMarkupChar, Bool.or_eq_false_iff, decide_eq_false_iff_not] at h
  exact ⟨h.1.1.1.1.1.1, h.1.1.1.1.1.2, h.1.1.1.1.2, h.1.1.1.2, h.1.1.2, h.1.2, h.2⟩

theorem sub1F_id : ∀ (fuel : Nat) {l : List Char}, markupFree l = true → sub1F fuel l = l := by
  intro fuel
  induction fuel with
  | zero => intro l _; rfl
  | succ fuel ih =>
    intro l h
    cases l with
    | nil => rfl
    | cons c rest =>
      obtain ⟨hc, hr⟩ := markupFree_cons h
      have hcne := (isMarkupChar_spec hc).1
      simp only [sub1F]
      rw [if_neg (fun hcontra => hcne hcontra.1), ih hr]

theorem sub2F_id : ∀ (fuel : Nat) {l : List Char}, markupFree l = true → sub2F fuel l = l := by
  intro fuel
  induction fuel with
  | zero => intro l _; rfl
  | succ fuel ih =>
    intro l h
    cases l with
    | nil => rfl
    | cons c rest =>
      obtain ⟨hc, hr⟩ := markupFree_cons h
      have hcne := (isMarkupChar_spec hc).1
      simp only [sub2F]
      rw [if_neg hcne, ih hr]

theorem sub3F_id : ∀ (fuel : Nat) {l : List Char}, markupFree l = true → sub3F fuel l = l := by
  intro fuel
  induction fuel with
  | zero => intro l _; rfl
  | succ fuel ih =>
    intro l h
    cases l with
    | nil => rfl
    | cons c rest =>
      obtain ⟨hc, hr⟩ := markupFree_cons h
      have hcne := (isMarkupChar_spec hc).2.2.1
      simp only [sub3F]
      rw [if_neg hcne, ih hr]

theorem sub4F_id : ∀ (fuel : Nat) {l : List Char}, markupFree l = true → sub4F fuel l = l := by
  intro fuel
  induction fuel with
  | zero => intro l _; rfl
  | succ fuel ih =>
    intro l h
    cases l with
    | nil => rfl
    | cons c rest =>
      obtain ⟨hc, hr⟩ := markupFree_cons h
      have hcne := (isMarkupChar_spec hc).2.2.1
      simp only [sub4F]
      rw [if_neg (fun hcontra => hcne hcontra.1), ih hr]

theorem sub5F_id : ∀ (fuel : Nat) {l : List Char}, markupFree l = true → sub5F fuel l = l := by
  intro fuel
  induction fuel with
  | zero => intro l _; rfl
  | succ fuel ih =>
    intro l h
    cases l with
    | nil => rfl
    | cons c rest =>
      obtain ⟨hc, hr⟩ := markupFree_cons h
      have hcne := (isMarkupChar_spec hc).2.2.2.2.2.2
      simp only [sub5F]
      rw [if_neg (fun hcontra => hcne hcontra.1), ih hr]

theorem sub6F_id : ∀ (fuel : Nat) {l : List Char}, markupFree l = true → sub6F fuel l = l := by
  intro fuel
  induction fuel with
  | zero => intro l _; rfl
  | succ fuel ih =>
    intro l h
    cases l with
    | nil => rfl
    | cons c rest =>
      obtain ⟨hc, hr⟩ := markupFree_cons h
      have hcne := (isMarkupChar_spec hc).2.2.2.2.2.2
      simp only [sub6F]
      rw [if_neg (fun hcontra => hcne hcontra.1), ih hr]

theorem sub7F_id : ∀ (fuel : Nat) {l : List Char}, markupFree l = true → sub7F fuel l = l := by
  intro fuel
  induction fuel with
  | zero => intro l _; rfl
  | succ fuel ih =>
    intro l h
    cases l with
    | nil => rfl
    | cons c rest =>
      obtain ⟨hc, hr⟩ := markupFree_cons h
      have hcne := (isMarkupChar_spec hc).2.2.2.1
      simp only [sub7F]
      rw [if_neg (fun hcontra => hcne hcontra.1), ih hr]

theorem sub8F_id : ∀ (fuel : Nat) {l : List Char}, markupFree l = true → sub8F fuel l = l := by
  intro fuel
  induction fuel with
  | zero => intro l _; rfl
  | succ fuel ih =>
    intro l h
    cases l with
    | nil => rfl
    | cons c rest =>
      obtain ⟨hc, hr⟩ := markupFree_cons h
      have hcne := (isMarkupChar_spec hc).2.2.2.1
      simp only [sub8F]
      rw [if_neg hcne, ih hr]

theorem sub9F_id : ∀ (fuel : Nat) {l : List Char}, markupFree l = true → sub9F fuel l = l := by
  intro fuel
  induction fuel with
  | zero => intro l _; rfl
  | succ fuel ih =>
    intro l h
    cases l with
    | nil => rfl
    | cons c rest =>
      obtain ⟨hc, hr⟩ := markupFree_cons h
      have hcne := (isMarkupChar_spec hc).2.2.2.2.1
      simp only [sub9F]
      rw [if_neg (fun hcontra => hcne hcontra.1), ih hr]

theorem sub10F_id : ∀ (fuel : Nat) {l : List Char}, markupFree l = true → sub10F fuel l = l := by
  intro fuel
  induction fuel with
  | zero => intro l _; rfl
  | succ fuel ih =>
    intro l h
    cases l with
    | nil => rfl
    | cons c rest =>
      obtain ⟨hc, hr⟩ := markupFree_cons h
      have hcne := (isMarkupChar_spec hc).2.2.2.2.1
      simp only [sub10F]
      rw [if_neg hcne, ih hr]

theorem sub11_id {l : List Char} (h : markupFree l = true) : sub11 l = l := by
  rw [sub11, List.filter_eq_self]
  intro a ha
  simp only [markupFree, List.all_eq_true] at h
  have := isMarkupChar_spec (by simpa using h a ha)
  simpa using this.1

theorem sub12_id {l : List Char} (h : markupFree l = true) : sub12 l = l := by
  rw [sub12, List.filter_eq_self]
  intro a ha
  simp only [markupFree, List.all_eq_true] at h
  have := isMarkupChar_spec (by simpa using h a ha)
  simpa using this.2.1

theorem sub13_id : ∀ {l : List Char}, markupFree l = true → sub13 l = l := by
  intro l
  induction l with
  | nil => intro _; rfl
  | cons c rest ih =>
    intro h
    obtain ⟨hc, hr⟩ := markupFree_cons h
    have hcne := (isMarkupChar_spec hc).2.2.2.2.2.1
    cases rest with
    | nil => rfl
    | cons d rest2 =>
      simp only [sub13]
      rw [if_neg (fun hcontra => hcne hcontra.1), ih hr]

/-- On markup-free text `clean_text` is just whitespace collapsing and
stripping. -/
theorem cleanText_of_markupFree {l : List Char} (h : markupFree l = true) :
    cleanText l = pyStrip (collapseGo false l) := by
  unfold cleanText sub1 sub2 sub3 sub4 sub5 sub6 sub7 sub8 sub9 sub10
  rw [sub1F_id _ h, sub2F_id _ h, sub3F_id _ h, sub4F_id _ h, sub5F_id _ h,
    sub6F_id _ h, sub7F_id _ h, sub8F_id _ h, sub9F_id _ h, sub10F_id _ h,
    sub11_id h, sub12_id h, sub13_id h, sub13_id h]

theorem collapseGo_cons_ws_true {c : Char} {rest : List Char} (hc : isWS c = true) :
    collapseGo true (c :: rest) = collapseGo true rest := by
  simp [collapseGo, hc]

theorem collapseGo_cons_ws_false {c : Char} {rest : List Char} (hc : isWS c = true) :
    collapseGo false (c :: rest) = ' ' :: collapseGo true rest := by
  simp [collapseGo, hc]

theorem collapseGo_cons_not_ws (b : Bool) {c : Char} {rest : List Char}
    (hc : isWS c = false) : collapseGo b (c :: rest) = c :: collapseGo false rest := by
  simp [collapseGo, hc]

theorem wsOnlySpace_cons (c : Char) (rest : List Char) :
    wsOnlySpace (c :: rest) = ((!isWS c || c = ' ') && wsOnlySpace rest) := rfl

theorem wsOnlySpace_collapseGo : ∀ (b : Bool) (l : List Char),
    wsOnlySpace (collapseGo b l) = true := by
  intro b l
  induction l generalizing b with
  | nil => rfl
  | cons c rest ih =>
    by_cases hc : isWS c = true
    · cases b with
      | true => rw [collapseGo_cons_ws_true hc]; exact ih true
      | false =>
        rw [collapseGo_cons_ws_false hc, wsOnlySpace_cons]
        simp only [ih true, Bool.and_true]
        decide
    · rw [collapseGo_cons_not_ws b (by simpa using hc), wsOnlySpace_cons]
      simp [hc, ih false]

theorem headNotWS_collapseGo_true : ∀ (l : List Char),
    headNotWS (collapseGo true l) = true := by
  intro l
  induction l with
  | nil => rfl
  | cons c rest ih =>
    by_cases hc : isWS c = true
    · rw [collapseGo_cons_ws_true hc]; exact ih
    · rw [collapseGo_cons_not_ws true (by simpa using hc)]
      simp [headNotWS, hc]

theorem noTwoWS_cons {a : Char} {X : List Char} (h1 : noTwoWS X = true)
    (h2 : headNotWS X = true ∨ isWS a = false) : noTwoWS (a :: X) = true := by
  cases X with
  | nil => rfl
  | cons d r =>
    simp only [noTwoWS, Bool.and_eq_true, Bool.not_eq_true']
    refine ⟨?_, h1⟩
    rcases h2 with h2 | h2
    · simp only [headNotWS, Bool.not_eq_true'] at h2
      simp [h2]
    · simp [h2]

theorem noTwoWS_collapseGo : ∀ (b : Bool) (l : List Char),
    noTwoWS (collapseGo b l) = true := by
  intro b l
  induction l generalizing b with
  | nil => rfl
  | cons c rest ih =>
    by_cases hc : isWS c = true
    · cases b with
      | true => rw [collapseGo_cons_ws_true hc]; exact ih true
      | false =>
        rw [collapseGo_cons_ws_false hc]
        exact noTwoWS_cons (ih true) (Or.inl (headNotWS_collapseGo_true rest))
    · rw [collapseGo_cons_not_ws b (by simpa using hc)]
      exact noTwoWS_cons (ih false) (Or.inr (by simpa using hc))

theorem noTwoWS_tail {c : Char} {rest : List Char} (h : noTwoWS (c :: rest) = true) :
    noTwoWS rest = true := by
  cases rest with
  | nil => rfl
  | cons d r =>
    simp only [noTwoWS, Bool.and_eq_true] at h
    exact h.2

theorem wsOnlySpace_tail {c : Char} {rest : List Char}
    (h : wsOnlySpace (c :: rest) = true) : wsOnlySpace rest = true := by
  simp only [wsOnlySpace, List.all_cons, Bool.and_eq_true] at h
  exact h.2

theorem collapseGo_true_eq_false {l : List Char} (h : headNotWS l = true) :
    collapseGo true l = collapseGo false l := by
  cases l with
  | nil => rfl
  | cons c rest =>
    simp only [headNotWS, Bool.not_eq_true'] at h
    simp [collapseGo, h]

/-- Whitespace collapsing fixes any string whose whitespace is already
normal. -/
theorem collapseGo_of_normal : ∀ {l : List Char}, wsOnlySpace l = true →
    noTwoWS l = true → collapseGo false l = l := by
  intro l
  induction l with
  | nil => intro _ _; rfl
  | cons c rest ih =>
    intro hws hnt
    by_cases hc : isWS c = true
    · have hcsp : c = ' ' := by
        rw [wsOnlySpace_cons, Bool.and_eq_true] at hws
        rcases Bool.or_eq_true_iff.mp hws.1 with h | h
        · rw [Bool.not_eq_true'] at h; rw [h] at hc; cases hc
        · exact of_decide_eq_true h
      have hhead : headNotWS rest = true := by
        cases rest with
        | nil => rfl
        | cons d r =>
          simp only [noTwoWS, Bool.and_eq_true, Bool.not_eq_true'] at hnt
          have := hnt.1
          rw [hc] at this
          simp only [Bool.true_and] at this
          simp [headNotWS, this]
      rw [collapseGo_cons_ws_false hc, collapseGo_true_eq_false hhead,
        ih (wsOnlySpace_tail hws) (noTwoWS_tail hnt), hcsp]
    · rw [collapseGo_cons_not_ws false (by simpa using hc),
        ih (wsOnlySpace_tail hws) (noTwoWS_tail hnt)]

theorem mem_rstripWS : ∀ {l : List Char} {c : Char}, c ∈ rstripWS l → c ∈ l := by
  intro l
  induction l with
  | nil => intro c h; exact absurd h (by simp [rstripWS])
  | cons d rest ih =>
    intro c h
    simp only [rstripWS] at h
    split at h
    · cases h
    · rcases List.mem_cons.mp h with h | h
      · exact List.mem_cons.mpr (Or.inl h)
      · exact List.mem_cons.mpr (Or.inr (ih h))

theorem rstripWS_head : ∀ (c : Char) (rest : List Char),
    rstripWS (c :: rest) = [] ∨ ∃ t, rstripWS (c :: rest) = c :: t := by
  intro c rest
  simp only [rstripWS]
  split
  · exact Or.inl rfl
  · exact Or.inr ⟨rstripWS rest, rfl⟩

theorem noTwoWS_rstripWS : ∀ {l : List Char}, noTwoWS l = true →
    noTwoWS (rstripWS l) = true := by
  intro l
  induction l with
  | nil => intro _; rfl
  | cons c rest ih =>
    intro h
    simp only [rstripWS]
    split
    · rfl
    · refine noTwoWS_cons (ih (noTwoWS_tail h)) ?_
      cases rest with
      | nil => exact Or.inl rfl
      | cons d r =>
        rcases rstripWS_head d r with he | ⟨t, ht⟩
        · rw [he]; exact Or.inl rfl
        · rw [ht]
          simp only [noTwoWS, Bool.and_eq_true, Bool.not_eq_true'] at h
          by_cases hd : isWS d = true
          · rw [hd] at h
            have : isWS c = false := by
              have h1 := h.1
              cases hcc : isWS c with
              | false => rfl
              | true => rw [hcc] at h1; simp at h1
            exact Or.inr this
          · exact Or.inl (by simp [headNotWS, ht, hd])

theorem wsOnlySpace_of_mem {l : List Char}
    (h : ∀ c ∈ l, (!isWS c || c = ' ') = true) : wsOnlySpace l = true := by
  simp only [wsOnlySpace, List.all_eq_true]
  intro a ha
  simpa using h a ha

theorem wsOnlySpace_mem {l : List Char} (h : wsOnlySpace l = true) :
    ∀ c ∈ l, (!isWS c || c = ' ') = true := by
  simp only [wsOnlySpace, List.all_eq_true] at h
  intro a ha
  simpa using h a ha

theorem wsOnlySpace_rstripWS {l : List Char} (h : wsOnlySpace l = true) :
    wsOnlySpace (rstripWS l) = true :=
  wsOnlySpace_of_mem (fun c hc => wsOnlySpace_mem h c (mem_rstripWS hc))

theorem wsOnlySpace_dropWhile {l : List Char} (h : wsOnlySpace l = true) :
    wsOnlySpace (l.dropWhile isWS) = true :=
  wsOnlySpace_of_mem (fun c hc =>
    wsOnlySpace_mem h c ((List.dropWhile_sublist isWS).subset hc))

theorem noTwoWS_dropWhile : ∀ {l : List Char}, noTwoWS l = true →
    noTwoWS (l.dropWhile isWS) = true := by
  intro l
  induction l with
  | nil => intro _; rfl
  | cons c rest ih =>
    intro h
    simp only [List.dropWhile]
    split
    · exact ih (noTwoWS_tail h)
    · exact h

theorem rstripWS_idem : ∀ (l : List Char), rstripWS (rstripWS l) = rstripWS l := by
  intro l
  induction l with
  | nil => rfl
  | cons c rest ih =>
    simp only [rstripWS]
    split
    · rfl
    · rename_i hcond
      simp only [rstripWS, ih]
      rw [if_neg hcond]

theorem headNotWS_dropWhile (l : List Char) : headNotWS (l.dropWhile isWS) = true := by
  induction l with
  | nil => rfl
  | cons c rest ih =>
    simp only [List.dropWhile]
    split
    · exact ih
    · rename_i hc
      simp [headNotWS, hc]

theorem headNotWS_rstripWS {l : List Char} (h : headNotWS l = true) :
    headNotWS (rstripWS l) = true := by
  cases l with
  | nil => rfl
  | cons c rest =>
    rcases rstripWS_head c rest with he | ⟨t, ht⟩
    · rw [he]; rfl
    · rw [ht]
      simpa [headNotWS] using h

theorem dropWhile_of_headNotWS {l : List Char} (h : headNotWS l = true) :
    l.dropWhile isWS = l := by
  cases l with
  | nil => rfl
  | cons c rest =>
    simp only [headNotWS, Bool.not_eq_true'] at h
    simp [List.dropWhile, h]

theorem pyStrip_idem (l : List Char) : pyStrip (pyStrip l) = pyStrip l := by
  unfold pyStrip
  rw [dropWhile_of_headNotWS (headNotWS_rstripWS (headNotWS_dropWhile l)),
    rstripWS_idem]

theorem markupFree_of_mem {l : List Char}
    (h : ∀ c ∈ l, isMarkupChar c = false) : markupFree l = true := by
  simp only [markupFree, List.all_eq_true]
  intro a ha
  simpa using h a ha

theorem markupFree_mem {l : List Char} (h : markupFree l = true) :
    ∀ c ∈ l, isMarkupChar c = false := by
  simp only [markupFree, List.all_eq_true] at h
  intro a ha
  simpa using h a ha

theorem markupFree_collapseGo : ∀ (b : Bool) {l : List Char},
    markupFree l = true → markupFree (collapseGo b l) = true := by
  intro b l
  induction l generalizing b with
  | nil => intro _; rfl
  | cons c rest ih =>
    intro h
    obtain ⟨hc, hr⟩ := markupFree_cons h
    by_cases hws : isWS c = true
    · cases b with
      | true => rw [collapseGo_cons_ws_true hws]; exact ih true hr
      | false =>
        rw [collapseGo_cons_ws_false hws]
        refine markupFree_of_mem ?_
        intro a ha
        rcases List.mem_cons.mp ha with ha | ha
        · subst ha; decide
        · exact markupFree_mem (ih true hr) a ha
    · rw [collapseGo_cons_not_ws b (by simpa using hws)]
      refine markupFree_of_mem ?_
      intro a ha
      rcases List.mem_cons.mp ha with ha | ha
      · subst ha; exact hc
      · exact markupFree_mem (ih false hr) a ha

theorem markupFree_pyStrip {l : List Char} (h : markupFree l = true) :
    markupFree (pyStrip l) = true := by
  refine markupFree_of_mem ?_
  intro c hc
  exact markupFree_mem h c ((List.dropWhile_sublist isWS).subset (mem_rstripWS hc))

/-- Claim C6, counterexample: `clean_text` is not idempotent.  On
`"__a_b__"` the `_([^_]+)_` pass rewrites the string to `"_ab__"`, which a
second pass rewrites further to `"ab_"`. -/
theorem c6_counterexample :
    cleanText (cleanText "__a_b__".toList) ≠ cleanText "__a_b__".toList := by
  decide

/-- Claim C6 (amended): `clean_text` is idempotent on strings containing no
markup-trigger character (`[`, `]`, `(`, `*`, `_`, backslash, `{`); on such
strings it reduces to whitespace collapsing plus stripping, which is
idempotent. -/
theorem c6_theorem (s : List Char) (h : markupFree s = true) :
    cleanText (cleanText s) = cleanText s := by
  have h1 : cleanText s = pyStrip (collapseGo false s) := cleanText_of_markupFree h
  have hmf : markupFree (pyStrip (collapseGo false s)) = true :=
    markupFree_pyStrip (markupFree_collapseGo false h)
  have h2 : cleanText (pyStrip (collapseGo false s)) =
      pyStrip (collapseGo false (pyStrip (collapseGo false s))) :=
    cleanText_of_markupFree hmf
  have hws : wsOnlySpace (pyStrip (collapseGo false s)) = true := by
    unfold pyStrip
    exact wsOnlySpace_rstripWS (wsOnlySpace_dropWhile (wsOnlySpace_collapseGo false s))
  have hnt : noTwoWS (pyStrip (collapseGo false s)) = true := by
    unfold pyStrip
    exact noTwoWS_rstripWS (noTwoWS_dropWhile (noTwoWS_collapseGo false s))
  rw [h1, h2, collapseGo_of_normal hws hnt, pyStrip_idem]

/-- Witness for the amended C6 at a concrete markup-free string. -/
theorem c6_witness :
    markupFree "Пользователь  должен войти ".toList = true ∧
    cleanText (cleanText "Пользователь  должен войти ".toList) =
      cleanText "Пользователь  должен войти ".toList :=
  ⟨by decide, c6_theorem _ (by decide)⟩

/-! ## Lemmas for claim C9: the clause splitter. -/

theorem firstSplit_append {m : List Char} :
    ∀ {l a b : List Char}, firstSplit m l = some (a, b) → a ++ m ++ b = l := by
  intro l
  induction l with
  | nil =>
    intro a b h
    simp only [firstSplit] at h
    split at h
    · rename_i hp
      cases h
      simp_all [List.isPrefixOf_iff_prefix, List.prefix_nil]
    · cases h
  | cons c rest ih =>
    intro a b h
    simp only [firstSplit] at h
    split at h
    · rename_i hp
      cases h
      rw [List.isPrefixOf_iff_prefix] at hp
      obtain ⟨t, ht⟩ := hp
      simp [← ht, List.drop_left']
    · rcases hfs : firstSplit m rest with _ | p
      · rw [hfs] at h; cases h
      · rw [hfs] at h
        cases h
        have := ih hfs
        simp [← this]

theorem SPLIT_MARKERS_ne_nil : ∀ m ∈ SPLIT_MARKERS, m ≠ [] := by decide

theorem findSplit_mem :
    ∀ (ms : List (List Char)) {text a b : List Char},
      findSplit ms text = some (a, b) →
      ∃ m ∈ ms, firstSplit m text = some (a, b) ∧ 30 < a.length ∧ 30 < b.length := by
  intro ms
  induction ms with
  | nil => intro text a b h; simp [findSplit] at h
  | cons m ms ih =>
    intro text a b h
    simp only [findSplit] at h
    rcases hfs : firstSplit m text with _ | ⟨p1, p2⟩ <;> simp only [hfs] at h
    · obtain ⟨m1, hm1, h1, h2⟩ := ih h
      exact ⟨m1, List.mem_cons_of_mem _ hm1, h1, h2⟩
    · by_cases hlen : 30 < p1.length ∧ 30 < p2.length
      · rw [if_pos hlen] at h
        injection h with h1
        obtain ⟨rfl, rfl⟩ := Prod.mk.injEq .. |>.mp h1
        exact ⟨m, List.mem_cons_self _ _, hfs, hlen⟩
      · rw [if_neg hlen] at h
        obtain ⟨m1, hm1, h1, h2⟩ := ih h
        exact ⟨m1, List.mem_cons_of_mem _ hm1, h1, h2⟩

theorem findSplit_shorter {text a b : List Char}
    (h : findSplit SPLIT_MARKERS text = some (a, b)) :
    a.length < text.length ∧ b.length < text.length := by
  obtain ⟨m, hm, hfs, _, _⟩ := findSplit_mem _ h
  have hne : m ≠ [] := SPLIT_MARKERS_ne_nil m hm
  have hab := congrArg List.length (firstSplit_append hfs)
  simp only [List.length_append] at hab
  have : 0 < m.length := List.length_pos.mpr hne
  omega

theorem findSplit_nil : findSplit SPLIT_MARKERS [] = none := by decide

/-- The marker loop reports no split exactly when every marker occurrence
leaves one half at or under the minimum length of 30. -/
theorem findSplit_none_iff (ms : List (List Char)) (text : List Char) :
    findSplit ms text = none ↔
      ∀ m ∈ ms, ∀ a b, firstSplit m text = some (a, b) →
        a.length ≤ 30 ∨ b.length ≤ 30 := by
  induction ms with
  | nil => simp [findSplit]
  | cons m ms ih =>
    simp only [findSplit]
    rcases hfs : firstSplit m text with _ | ⟨p1, p2⟩ <;> simp only [hfs]
    · rw [ih]
      constructor
      · intro h m1 hm1 a1 b1 hfs1
        rcases List.mem_cons.mp hm1 with rfl | hm1
        · rw [hfs] at hfs1; cases hfs1
        · exact h m1 hm1 a1 b1 hfs1
      · intro h m1 hm1 a1 b1 hfs1
        exact h m1 (List.mem_cons_of_mem _ hm1) a1 b1 hfs1
    · by_cases hlen : 30 < p1.length ∧ 30 < p2.length
      · rw [if_pos hlen]
        constructor
        · intro h; cases h
        · intro h
          exfalso
          have := h m (List.mem_cons_self _ _) p1 p2 hfs
          omega
      · rw [if_neg hlen, ih]
        constructor
        · intro h m1 hm1 a1 b1 hfs1
          rcases List.mem_cons.mp hm1 with rfl | hm1
          · rw [hfs] at hfs1
            injection hfs1 with h1
            obtain ⟨rfl, rfl⟩ := Prod.mk.injEq .. |>.mp h1
            omega
          · exact h m1 hm1 a1 b1 hfs1
        · intro h m1 hm1 a1 b1 hfs1
          exact h m1 (List.mem_cons_of_mem _ hm1) a1 b1 hfs1

/-- Any budget at least `text.length` computes the same clause split. -/
theorem splitComplexRequirementF_congr :
    ∀ (f1 : Nat) {f2 : Nat} {text : List Char}, text.length ≤ f1 → text.length ≤ f2 →
      splitComplexRequirementF f1 text = splitComplexRequirementF f2 text := by
  intro f1
  induction f1 with
  | zero =>
    intro f2 text h1 _
    have htext : text = [] := List.length_eq_zero.mp (Nat.le_zero.mp h1)
    subst htext
    cases f2 with
    | zero => rfl
    | succ g => simp [splitComplexRequirementF, findSplit_nil]
  | succ fuel ih =>
    intro f2 text h1 h2
    cases f2 with
    | zero =>
      have htext : text = [] := List.length_eq_zero.mp (Nat.le_zero.mp h2)
      subst htext
      simp [splitComplexRequirementF, findSplit_nil]
    | succ g =>
      simp only [splitComplexRequirementF]
      rcases hfs : findSplit SPLIT_MARKERS text with _ | ⟨a, b⟩
      · rfl
      · have hsh := findSplit_shorter hfs
        show splitComplexRequirementF fuel a ++ splitComplexRequirementF fuel b =
          splitComplexRequirementF g a ++ splitComplexRequirementF g b
        rw [ih (show a.length ≤ fuel by omega) (show a.length ≤ g by omega),
          ih (show b.length ≤ fuel by omega) (show b.length ≤ g by omega)]

/-- Claim C9: `split_complex_requirement` terminates with the stated
behaviour.  When no marker occurs with both first-occurrence halves longer
than 30 characters, the text is returned unsplit; otherwise the first such
marker splits the text into two strictly shorter halves (each longer than 30)
and the function recurses on both. -/
theorem c9_theorem (text : List Char) :
    (findSplit SPLIT_MARKERS text = none → splitComplexRequirement text = [text]) ∧
    (∀ a b, findSplit SPLIT_MARKERS text = some (a, b) →
      30 < a.length ∧ 30 < b.length ∧
      a.length < text.length ∧ b.length < text.length ∧
      splitComplexRequirement text =
        splitComplexRequirement a ++ splitComplexRequirement b) ∧
    (findSplit SPLIT_MARKERS text = none ↔
      ∀ m ∈ SPLIT_MARKERS, ∀ a b, firstSplit m text = some (a, b) →
        a.length ≤ 30 ∨ b.length ≤ 30) := by
  refine ⟨?_, ?_, findSplit_none_iff SPLIT_MARKERS text⟩
  · intro h
    unfold splitComplexRequirement
    rcases hl : text.length with _ | n
    · have htext : text = [] := List.length_eq_zero.mp hl
      subst htext
      rfl
    · simp only [splitComplexRequirementF, h]
  · intro a b h
    have hsh := findSplit_shorter h
    have hlen : 30 < a.length ∧ 30 < b.length := by
      obtain ⟨m, _, _, h1, h2⟩ := findSplit_mem _ h
      exact ⟨h1, h2⟩
    refine ⟨hlen.1, hlen.2, hsh.1, hsh.2, ?_⟩
    conv_lhs => unfold splitComplexRequirement
    rcases hl : text.length with _ | n
    · omega
    · simp only [splitComplexRequirementF, h]
      unfold splitComplexRequirement
      rw [splitComplexRequirementF_congr n (show a.length ≤ n by omega) (le_refl _),
        splitComplexRequirementF_congr n (show b.length ≤ n by omega) (le_refl _)]

/-- Witness for C9: a concrete split on `", а также"` (both halves longer
than 30) and a concrete short requirement returned unsplit. -/
theorem c9_witness :
    splitComplexRequirement
        "Система должна сохранять данные пользователя автоматически, а также система должна отправлять уведомления".toList =
      splitComplexRequirement
        "Система должна сохранять данные пользователя автоматически".toList ++
      splitComplexRequirement " система должна отправлять уведомления".toList ∧
    splitComplexRequirement "Кнопка должна работать".toList =
      ["Кнопка должна работать".toList] :=
  ⟨((c9_theorem _).2.1 _ _ (by decide)).2.2.2.2, (c9_theorem _).1 (by decide)⟩

/-! ## Lemmas about `parseStep` (claims C2, C3, C7, C10). -/

theorem flushPar_parsingActive (st : ParseState) :
    (flushPar st).parsingActive = st.parsingActive := rfl

theorem flushPar_currentSection (st : ParseState) :
    (flushPar st).currentSection = st.currentSection := rfl

theorem flushPar_listContext (st : ParseState) :
    (flushPar st).listContext = st.listContext := rfl

/-- Claim C7: inside a fenced code block, every non-fence line leaves the
parser state completely unchanged (no items, no section change, no flag
change), and a fence line only toggles the code-block flag. -/
theorem c7_theorem :
    (∀ (start : List Char) (st : ParseState) (line : List Char),
      st.inCodeBlock = true → isFenceLine line = false →
      parseStep start st line = st) ∧
    (∀ (start : List Char) (st : ParseState) (line : List Char),
      isFenceLine line = true →
      parseStep start st line = { st with inCodeBlock := !st.inCodeBlock }) := by
  constructor
  · intro start st line hcb hf
    unfold parseStep
    rw [if_neg (by simp [hf]), if_pos hcb]
  · intro start st line hf
    unfold parseStep
    rw [if_pos hf]

/-- Witness for C7: a marker-word line inside a code block in an in-scope
section changes nothing, and the closing fence only flips the flag. -/
theorem c7_witness :
    parseStep "2".toList
        { initState with inCodeBlock := true, parsingActive := true,
                         currentSection := "2.1 Вход".toList }
        "Система должна хранить данные".toList =
      { initState with inCodeBlock := true, parsingActive := true,
                       currentSection := "2.1 Вход".toList } ∧
    parseStep "2".toList
        { initState with inCodeBlock := true, parsingActive := true,
                         currentSection := "2.1 Вход".toList }
        "```".toList =
      { initState with inCodeBlock := false, parsingActive := true,
                       currentSection := "2.1 Вход".toList } :=
  ⟨c7_theorem.1 _ _ _ rfl (by decide), c7_theorem.2 _ _ _ (by decide)⟩

/-- Claim C10, counterexample: a fence line processed during table mode does
change parser state (the code-block flag flips), because the fence check
precedes the table check — so "during table mode all other parser state is
unchanged" fails as stated. -/
theorem c10_counterexample :
    parseStep "2".toList { initState with inTable := true } "```".toList ≠
      { initState with inTable := true } := by
  decide

/-- Claim C10 (amended): a non-code-block, non-fence line with two or more
pipes enters table mode (changing nothing else); during table mode every
non-fence non-blank line — numbered headings included — leaves the state
unchanged, a blank line only clears the table flag, and a fence line still
toggles the code-block flag because the fence check precedes the table
check. -/
theorem c10_theorem :
    (∀ (start : List Char) (st : ParseState) (line : List Char),
      isFenceLine line = false → st.inCodeBlock = false → 2 ≤ countCh '|' line →
      parseStep start st line = { st with inTable := true }) ∧
    (∀ (start : List Char) (st : ParseState) (line : List Char),
      isFenceLine line = false → st.inCodeBlock = false → ¬ 2 ≤ countCh '|' line →
      st.inTable = true → (pyStrip line).isEmpty = false →
      parseStep start st line = st) ∧
    (∀ (start : List Char) (st : ParseState) (line : List Char),
      isFenceLine line = false → st.inCodeBlock = false → ¬ 2 ≤ countCh '|' line →
      st.inTable = true → (pyStrip line).isEmpty = true →
      parseStep start st line = { st with inTable := false }) ∧
    (∀ (start : List Char) (st : ParseState) (line : List Char),
      isFenceLine line = true →
      parseStep start st line = { st with inCodeBlock := !st.inCodeBlock }) := by
  refine ⟨?_, ?_, ?_, ?_⟩
  · intro start st line hf hcb hp
    unfold parseStep
    rw [if_neg (by simp [hf]), if_neg (by simp [hcb]), if_pos hp]
  · intro start st line hf hcb hp ht he
    unfold parseStep
    rw [if_neg (by simp [hf]), if_neg (by simp [hcb]), if_neg hp,
      if_neg (by simp [he]), if_pos ht]
  · intro start st line hf hcb hp ht he
    unfold parseStep
    rw [if_neg (by simp [hf]), if_neg (by simp [hcb]), if_neg hp,
      if_pos (by simp [ht, he])]
  · intro start st line hf
    unfold parseStep
    rw [if_pos hf]

/-- Witness for the amended C10: a table line enters table mode, and a
numbered heading inside table mode updates neither the section nor the
active flag. -/
theorem c10_witness :
    parseStep "2".toList
        { initState with parsingActive := true, currentSection := "2.1 Вход".toList }
        "|Колонка|Значение|".toList =
      { initState with parsingActive := true, currentSection := "2.1 Вход".toList,
                       inTable := true } ∧
    parseStep "2".toList
        { initState with parsingActive := true, currentSection := "2.1 Вход".toList,
                         inTable := true }
        "## 3.1 Другое".toList =
      { initState with parsingActive := true, currentSection := "2.1 Вход".toList,
                       inTable := true } :=
  ⟨c10_theorem.1 _ _ _ (by decide) rfl (by decide),
   c10_theorem.2.1 _ _ _ (by decide) rfl (by decide) rfl (by decide)⟩

/-- Claim C3: after a numbered heading line is processed (outside code and
table suppression), the extraction-active flag equals the string-prefix test
of the configured start section against the heading's dotted path — whatever
the flag's previous value. -/
theorem c3_theorem (start : List Char) (st : ParseState) (line : List Char)
    (lvl : Nat) (num title : List Char)
    (hf : isFenceLine line = false) (hcb : st.inCodeBlock = false)
    (hp : ¬ 2 ≤ countCh '|' line) (ht : st.inTable = false)
    (hm : headerCombined line = some (lvl, num, title)) :
    (parseStep start st line).parsingActive = start.isPrefixOf (rstripDots num) := by
  unfold parseStep
  rw [if_neg (by simp [hf]), if_neg (by simp [hcb]), if_neg hp,
    if_neg (by simp [ht]), if_neg (by simp [ht])]
  simp only [hm]
  simp only [applyHeader]
  by_cases hs : start.isPrefixOf (rstripDots num) = true
  · rw [if_pos hs, hs]
  · rw [if_neg hs]
    rw [Bool.not_eq_true] at hs
    rw [hs]
    by_cases hb : st.paragraphBuffer ≠ [] ∧ st.parsingActive = true
    · rw [if_pos hb]
      by_cases ha : (flushPar st).parsingActive = true
      · rw [if_pos ha]
      · rw [if_neg ha]
        rw [Bool.not_eq_true] at ha
        exact ha
    · rw [if_neg hb]
      by_cases ha : st.parsingActive = true
      · rw [if_pos ha]
      · rw [if_neg ha]
        rw [Bool.not_eq_true] at ha
        exact ha

/-- Witness for C3: start section `"2"` and heading path `"20.1"` — the
prefix test succeeds (the documented quirk) and activates extraction from an
inactive state. -/
theorem c3_witness :
    (parseStep "2".toList initState "## 20.1 Обзор".toList).parsingActive =
      ("2".toList).isPrefixOf (rstripDots "20.1".toList) :=
  c3_theorem "2".toList initState "## 20.1 Обзор".toList 2 "20.1".toList
    "Обзор".toList (by decide) rfl (by decide) rfl (by decide)

section
attribute [local irreducible] cleanText transformToCheck isFunctionalRequirement
attribute [local irreducible] isListItemValid joinSpace pyRstrip

/-- Field behaviour of the item-emission half of the list branch: it never
touches the context, buffer, active flag or section, and any item it appends
is the (cleaned) list item with the next number. -/
theorem addListItem_fields (st1 : ParseState) (txt : List Char) :
    (addListItem st1 txt).listContext = st1.listContext ∧
    (addListItem st1 txt).paragraphBuffer = st1.paragraphBuffer ∧
    (addListItem st1 txt).parsingActive = st1.parsingActive ∧
    (addListItem st1 txt).currentSection = st1.currentSection ∧
    ((addListItem st1 txt).checklistItems = st1.checklistItems ∨
     (addListItem st1 txt).checklistItems = st1.checklistItems ++
       [(st1.currentSection, mkItem (st1.itemCounter + 1) (transformToCheck txt))]) := by
  unfold addListItem
  split
  · exact ⟨rfl, rfl, rfl, rfl, Or.inl rfl⟩
  · split
    · exact ⟨rfl, rfl, rfl, rfl, Or.inr rfl⟩
    · exact ⟨rfl, rfl, rfl, rfl, Or.inl rfl⟩

/-- Claim C2: when a buffered paragraph whose right-stripped join ends with a
colon immediately precedes a list-item line, the paragraph is captured as
list context (normalized, colon stripped) instead of being emitted as an
item — any item the step emits is the list item itself — and for subsequent
list-item lines (empty buffer) the captured context is left in place. -/
theorem c2_theorem :
    (∀ (start : List Char) (st : ParseState) (line txt : List Char),
      isFenceLine line = false → st.inCodeBlock = false →
      ¬ 2 ≤ countCh '|' line → st.inTable = false →
      headerCombined line = none → st.parsingActive = true →
      headerNoNumMatch line = none → (pyStrip line).isEmpty = false →
      listCombined line = some txt →
      st.paragraphBuffer ≠ [] →
      endsWithCh ':' (pyRstrip (joinSpace st.paragraphBuffer)) = true →
      (parseStep start st line).listContext =
        cleanText ((pyRstrip (joinSpace st.paragraphBuffer)).dropLast) ∧
      (parseStep start st line).paragraphBuffer = [] ∧
      (parseStep start st line).parsingActive = st.parsingActive ∧
      (parseStep start st line).currentSection = st.currentSection ∧
      ((parseStep start st line).checklistItems = st.checklistItems ∨
       (parseStep start st line).checklistItems = st.checklistItems ++
         [(st.currentSection, mkItem (st.itemCounter + 1) (transformToCheck txt))])) ∧
    (∀ (start : List Char) (st : ParseState) (line txt : List Char),
      isFenceLine line = false → st.inCodeBlock = false →
      ¬ 2 ≤ countCh '|' line → st.inTable = false →
      headerCombined line = none → st.parsingActive = true →
      headerNoNumMatch line = none → (pyStrip line).isEmpty = false →
      listCombined line = some txt →
      st.paragraphBuffer = [] →
      (parseStep start st line).listContext = st.listContext) := by
  constructor
  · intro start st line txt hf hcb hp ht hm ha hn he hl hb hco
    have hstep : parseStep start st line = handleListItem st txt := by
      unfold parseStep
      rw [if_neg (by simp [hf]), if_neg (by simp [hcb]), if_neg hp,
        if_neg (by simp [ht]), if_neg (by simp [ht])]
      simp only [hm, ha, Bool.not_true, Bool.false_eq_true, if_false]
      rw [if_neg (by simp [hn]), if_neg (by simp [he])]
      simp only [hl]
    have hh : parseStep start st line =
        addListItem
          { st with
              listContext := cleanText ((pyRstrip (joinSpace st.paragraphBuffer)).dropLast)
              paragraphBuffer := [] } txt := by
      rw [hstep]
      unfold handleListItem
      rw [if_pos hb, if_pos hco]
    have h := addListItem_fields
      { st with
          listContext := cleanText ((pyRstrip (joinSpace st.paragraphBuffer)).dropLast)
          paragraphBuffer := [] } txt
    exact ⟨(congrArg ParseState.listContext hh).trans h.1,
      (congrArg ParseState.paragraphBuffer hh).trans h.2.1,
      (congrArg ParseState.parsingActive hh).trans h.2.2.1,
      (congrArg ParseState.currentSection hh).trans h.2.2.2.1,
      h.2.2.2.2.elim
        (fun f5 => Or.inl ((congrArg ParseState.checklistItems hh).trans f5))
        (fun f5 => Or.inr ((congrArg ParseState.checklistItems hh).trans f5))⟩
  · intro start st line txt hf hcb hp ht hm ha hn he hl hb
    have hstep : parseStep start st line = handleListItem st txt := by
      unfold parseStep
      rw [if_neg (by simp [hf]), if_neg (by simp [hcb]), if_neg hp,
        if_neg (by simp [ht]), if_neg (by simp [ht])]
      simp only [hm, ha, Bool.not_true, Bool.false_eq_true, if_false]
      rw [if_neg (by simp [hn]), if_neg (by simp [he])]
      simp only [hl]
    have hh : parseStep start st line = addListItem st txt := by
      rw [hstep]
      unfold handleListItem
      rw [if_neg (by simp [hb])]
    exact (congrArg ParseState.listContext hh).trans (addListItem_fields st txt).1

end

/-- Witness for C2 at a concrete colon paragraph followed by a list item, and
persistence of the captured context at the next list item. -/
theorem c2_witness :
    ((parseStep "2".toList
        { initState with parsingActive := true,
                         currentSection := "2.1 Вход".toList,
                         paragraphBuffer := ["Доступны действия:".toList] }
        "- Кнопка должна отображаться".toList).listContext =
      cleanText ((pyRstrip (joinSpace
        [("Доступны действия:".toList : List Char)])).dropLast) ∧
     (parseStep "2".toList
        { initState with parsingActive := true,
                         currentSection := "2.1 Вход".toList,
                         paragraphBuffer := ["Доступны действия:".toList] }
        "- Кнопка должна отображаться".toList).paragraphBuffer = [] ∧
     (parseStep "2".toList
        { initState with parsingActive := true,
                         currentSection := "2.1 Вход".toList,
                         paragraphBuffer := ["Доступны действия:".toList] }
        "- Кнопка должна отображаться".toList).parsingActive = true ∧
     (parseStep "2".toList
        { initState with parsingActive := true,
                         currentSection := "2.1 Вход".toList,
                         paragraphBuffer := ["Доступны действия:".toList] }
        "- Кнопка должна отображаться".toList).currentSection = "2.1 Вход".toList ∧
     ((parseStep "2".toList
        { initState with parsingActive := true,
                         currentSection := "2.1 Вход".toList,
                         paragraphBuffer := ["Доступны действия:".toList] }
        "- Кнопка должна отображаться".toList).checklistItems = [] ∨
      (parseStep "2".toList
        { initState with parsingActive := true,
                         currentSection := "2.1 Вход".toList,
                         paragraphBuffer := ["Доступны действия:".toList] }
        "- Кнопка должна отображаться".toList).checklistItems =
        [] ++ [("2.1 Вход".toList,
          mkItem (0 + 1) (transformToCheck "Кнопка должна отображаться".toList))])) ∧
    (parseStep "2".toList
        { initState with parsingActive := true,
                         listContext := "Доступны действия".toList }
        "- Выход из системы".toList).listContext = "Доступны действия".toList := by
  constructor
  · exact c2_theorem.1 "2".toList _ _ "Кнопка должна отображаться".toList
      (by decide) rfl (by decide) rfl (by decide) rfl (by decide) (by decide)
      (by decide) (by decide) (by decide)
  · exact c2_theorem.2 "2".toList _ _ "Выход из системы".toList
      (by decide) rfl (by decide) rfl (by decide) rfl (by decide) (by decide)
      (by decide) rfl

/-! ## Lemmas about the CSV emitter (claims C5 and C8). -/

theorem cellNums_append (a b : List (List Cell)) :
    cellNums (a ++ b) = cellNums a ++ cellNums b := by
  simp [cellNums]

theorem cellNums_sectionRow (sec : List Char) : cellNums [sectionRow sec] = [] := rfl

theorem cellNums_introRow (it : ChecklistItem) : cellNums [introRow it] = [] := rfl

theorem cellNums_numRow (n : Nat) (it : ChecklistItem) :
    cellNums [numRow n it] = [n] := rfl

theorem cellNums_cons (row : List Cell) (rows : List (List Cell)) :
    cellNums (row :: rows) = cellNums [row] ++ cellNums rows := by
  simp [cellNums]

/-- The numbers the body writes form the gap-free sequence continuing the
running counter, one number per non-introductory item. -/
theorem cellNums_csvBody : ∀ (items : List (List Char × ChecklistItem))
    (cs : List Char) (n : Nat),
    cellNums (csvBody cs n items) =
      natSeq (n + 1) (items.countP (fun p => !isIntroItem p.2)) := by
  intro items
  induction items with
  | nil => intro cs n; rfl
  | cons p rest ih =>
    intro cs n
    obtain ⟨sec, it⟩ := p
    simp only [csvBody]
    rw [cellNums_append]
    by_cases hi : isIntroItem it = true
    · rw [if_pos hi, cellNums_cons, cellNums_introRow, ih sec n]
      rw [List.countP_cons]
      simp only [hi, Bool.not_true]
      have hz : cellNums (if sec = cs then ([] : List (List Cell)) else [sectionRow sec]) = [] := by
        split
        · rfl
        · exact cellNums_sectionRow sec
      rw [hz]
      rfl
    · rw [if_neg hi, cellNums_cons, cellNums_numRow, ih sec (n + 1)]
      rw [List.countP_cons]
      have hb : isIntroItem it = false := by
        cases hcc : isIntroItem it with
        | false => rfl
        | true => exact absurd hcc hi
      simp only [hb, Bool.not_false]
      have hz : cellNums (if sec = cs then ([] : List (List Cell)) else [sectionRow sec]) = [] := by
        split
        · rfl
        · exact cellNums_sectionRow sec
      rw [hz]
      rfl

/-- Each item occupies exactly one row; section changes add one row each. -/
theorem length_csvBody : ∀ (items : List (List Char × ChecklistItem))
    (cs : List Char) (n : Nat),
    (csvBody cs n items).length = sectionChanges cs items + items.length := by
  intro items
  induction items with
  | nil => intro cs n; rfl
  | cons p rest ih =>
    intro cs n
    obtain ⟨sec, it⟩ := p
    simp only [csvBody, sectionChanges]
    rw [List.length_append]
    by_cases hi : isIntroItem it = true
    · rw [if_pos hi]
      simp only [List.length_cons, ih sec n]
      split <;> simp <;> omega
    · rw [if_neg hi]
      simp only [List.length_cons, ih sec (n + 1)]
      split <;> simp <;> omega

/-- Claim C5, counterexample: an item whose name is `"Проверка: "` (trailing
space) does not end with a colon, yet `generate_csv` writes its row without a
number because the code right-strips the name before testing for the colon —
so the numbers of rows whose text does not end with a colon are not
`1, 2, ...` as claimed. -/
theorem c5_counterexample :
    ([("Раздел".toList, mkItem 1 "Проверка: ".toList)].countP
        (fun p => !endsWithCh ':' p.2.name) = 1) ∧
    cellNums (generateCsvRows [("Раздел".toList, mkItem 1 "Проверка: ".toList)]) =
      [] := by
  constructor
  · decide
  · decide

/-- Claim C5 (amended): the numbers written form the strictly increasing
gap-free sequence `1, 2, 3, ...` — one number per item whose name, after
right-stripping whitespace, does not end with a colon (a single counter never
reset at section boundaries) — while every item, colon-terminated or not,
occupies exactly one row (beyond the header row and one row per section
change). -/
theorem c5_theorem (items : List (List Char × ChecklistItem)) :
    cellNums (generateCsvRows items) =
      natSeq 1 (items.countP (fun p => !isIntroItem p.2)) ∧
    (generateCsvRows items).length = 1 + (sectionChanges [] items + items.length) := by
  constructor
  · have h := cellNums_csvBody items [] 0
    calc cellNums (generateCsvRows items)
        = cellNums [headerRow] ++ cellNums (csvBody [] 0 items) := by
          rw [generateCsvRows, cellNums_cons]
      _ = natSeq 1 (items.countP (fun p => !isIntroItem p.2)) := by
          rw [h]; rfl
  · rw [generateCsvRows, List.length_cons, length_csvBody]
    omega

theorem sectionRow_ne_headerRow (sec : List Char) : sectionRow sec ≠ headerRow := by
  intro h
  rw [sectionRow, headerRow] at h
  injection h with h1 h2
  injection h2 with h3 h4
  injection h3 with h5
  exact absurd h5 (by decide)

theorem introRow_ne_headerRow (it : ChecklistItem) : introRow it ≠ headerRow := by
  intro h
  rw [introRow, headerRow] at h
  injection h with h1 h2
  injection h1 with h3
  exact absurd h3 (by decide)

theorem numRow_ne_headerRow (n : Nat) (it : ChecklistItem) :
    numRow n it ≠ headerRow := by
  intro h
  rw [numRow, headerRow] at h
  injection h with h1 h2
  exact Cell.noConfusion h1

/-- Every row the body emits is a section, intro or numbered row. -/
theorem mem_csvBody : ∀ (items : List (List Char × ChecklistItem))
    (cs : List Char) (n : Nat) (row : List Cell), row ∈ csvBody cs n items →
    (∃ sec, row = sectionRow sec) ∨ (∃ it, row = introRow it) ∨
      (∃ k it, row = numRow k it) := by
  intro items
  induction items with
  | nil => intro cs n row h; exact absurd h (by simp [csvBody])
  | cons p rest ih =>
    intro cs n row h
    obtain ⟨sec, it⟩ := p
    simp only [csvBody] at h
    rcases List.mem_append.mp h with h | h
    · left
      refine ⟨sec, ?_⟩
      split at h
      · exact absurd h (by simp)
      · simpa using h
    · by_cases hi : isIntroItem it = true
      · rw [if_pos hi] at h
        rcases List.mem_cons.mp h with h | h
        · exact Or.inr (Or.inl ⟨it, h⟩)
        · exact ih sec n row h
      · rw [if_neg hi] at h
        rcases List.mem_cons.mp h with h | h
        · exact Or.inr (Or.inr ⟨n + 1, it, h⟩)
        · exact ih sec (n + 1) row h

theorem csvBody_headerRow_count (items : List (List Char × ChecklistItem))
    (cs : List Char) (n : Nat) :
    (csvBody cs n items).countP (fun r => decide (r = headerRow)) = 0 := by
  rw [List.countP_eq_zero]
  intro row hrow
  rcases mem_csvBody items cs n row hrow with ⟨sec, rfl⟩ | ⟨it, rfl⟩ | ⟨k, it, rfl⟩
  · simpa using sectionRow_ne_headerRow sec
  · simpa using introRow_ne_headerRow it
  · simpa using numRow_ne_headerRow k it

/-- `parseStep` ignores the configured start section on an empty line from an
initial state (no heading can match), so the empty document parses to the
initial state for every start section. -/
theorem parseDoc_empty (start : List Char) : parseDoc start [] = initState := by
  unfold parseDoc splitLines
  have h1 : parseStep start initState [] = initState := by
    unfold parseStep
    rw [if_neg (by decide), if_neg (by decide), if_neg (by decide),
      if_neg (by decide), if_neg (by decide)]
    have hc : headerCombined ([] : List Char) = none := by decide
    simp only [hc]
    rw [if_pos (by decide)]
  simp only [List.foldl, h1]
  rw [if_neg (by simp [initState])]

/-- Claim C8: every produced output contains exactly one header row — for
arbitrary item lists, hence for every parsed document — and the empty
document yields zero items and a header-only file rather than an error. -/
theorem c8_theorem :
    (∀ (items : List (List Char × ChecklistItem)),
      (generateCsvRows items).countP (fun r => decide (r = headerRow)) = 1) ∧
    (∀ (start doc : List Char),
      (generateCsvRows (parseDoc start doc).checklistItems).countP
        (fun r => decide (r = headerRow)) = 1) ∧
    (∀ (start : List Char), (parseDoc start []).checklistItems = []) ∧
    (∀ (start : List Char),
      generateCsvRows (parseDoc start []).checklistItems = [headerRow]) := by
  have hcount : ∀ (items : List (List Char × ChecklistItem)),
      (generateCsvRows items).countP (fun r => decide (r = headerRow)) = 1 := by
    intro items
    rw [generateCsvRows, List.countP_cons]
    rw [csvBody_headerRow_count]
    simp
  have hempty : ∀ (start : List Char), (parseDoc start []).checklistItems = [] := by
    intro start
    rw [parseDoc_empty]
    rfl
  refine ⟨hcount, fun start doc => hcount _, hempty, ?_⟩
  intro start
  rw [hempty start]
  rfl

/-! ## Claims C1 and C4: concrete behaviour of heading lines and inline
semicolon lists. -/

/-- Claim C1, counterexample: the heading line, processed with start-section
`"2"`, yields no checklist item at all — headings update the section state
but never emit items — refuting "yields at least one accepted checklist item
whose text contains «должна отображать кнопку»". -/
theorem c1_counterexample :
    ¬ ∃ p ∈ (parseDocStr "2"
        "## 2.3 Раздел: Функция X должна отображать кнопку").checklistItems,
      containsSub "должна отображать кнопку".toList p.2.name = true := by
  have h : (parseDocStr "2"
      "## 2.3 Раздел: Функция X должна отображать кнопку").checklistItems = [] := by
    decide
  rintro ⟨p, hp, _⟩
  rw [h] at hp
  exact List.not_mem_nil p hp

/-- Claim C1 (amended): with start-section `"2"` the line activates
extraction and makes `2.3 Раздел: Функция X должна отображать кнопку` the
current section (so the phrase survives only in the section label), but it
yields zero checklist items; with start-section `"3"` it also yields zero
items and leaves extraction inactive. -/
theorem c1_theorem :
    (parseDocStr "2"
        "## 2.3 Раздел: Функция X должна отображать кнопку").checklistItems = [] ∧
    (parseDocStr "2"
        "## 2.3 Раздел: Функция X должна отображать кнопку").parsingActive = true ∧
    (parseDocStr "2"
        "## 2.3 Раздел: Функция X должна отображать кнопку").currentSection =
      "2.3 Раздел: Функция X должна отображать кнопку".toList ∧
    containsSub "должна отображать кнопку".toList
      (parseDocStr "2"
        "## 2.3 Раздел: Функция X должна отображать кнопку").currentSection = true ∧
    (parseDocStr "3"
        "## 2.3 Раздел: Функция X должна отображать кнопку").checklistItems = [] ∧
    (parseDocStr "3"
        "## 2.3 Раздел: Функция X должна отображать кнопку").parsingActive = false := by
  refine ⟨by decide, by decide, by decide, by decide, by decide, by decide⟩

/-- Claim C4: a paragraph with two or more semicolons is handled by the
inline-list branch (split on semicolons/newlines, emitting each clause that
classifies as a requirement), and the concrete three-clause paragraph yields
exactly three separate checklist items, one per clause. -/
theorem c4_theorem :
    2 ≤ countCh ';'
      "Пользователь должен ввести email; пароль должен быть не короче 8 символов; капча должна быть пройдена".toList ∧
    parseParagraph 0
      "Пользователь должен ввести email; пароль должен быть не короче 8 символов; капча должна быть пройдена".toList
      "2.1 Вход".toList =
      (3, [("2.1 Вход".toList, mkItem 1 "Пользователь должен ввести email".toList),
           ("2.1 Вход".toList, mkItem 2 "пароль должен быть не короче 8 символов".toList),
           ("2.1 Вход".toList, mkItem 3 "капча должна быть пройдена".toList)]) ∧
    (∀ (c : Nat) (t s : List Char), isDescriptiveText t = false →
      2 ≤ countCh ';' t →
      parseParagraph c t s = (extractListItems t).foldl (emitIf s) (introEmit c t s)) := by
  refine ⟨by decide, by decide, ?_⟩
  intro c t s hdesc hsemi
  unfold parseParagraph
  rw [if_neg (by simp [hdesc]), if_pos hsemi]

/-- Witness for C4's inline-list branch at a concrete paragraph and a nonzero
running counter. -/
theorem c4_witness :
    parseParagraph 5 "Доступно: меню; кнопка выхода должна работать; счет".toList
      "2.2 Экран".toList =
      (extractListItems
          "Доступно: меню; кнопка выхода должна работать; счет".toList).foldl
        (emitIf "2.2 Экран".toList)
        (introEmit 5 "Доступно: меню; кнопка выхода должна работать; счет".toList
          "2.2 Экран".toList) :=
  c4_theorem.2.2 5 _ _ (by decide) (by decide)

end TZ
